import Mathlib

/-!
# Stash-MCP core: shallow embedding and verification

This file embeds the transactional write-gate and git process wrapper of
Stash-MCP (`src/stash_mcp/transactions.py`, `src/stash_mcp/git_backend.py`)
as executable Lean definitions and proves the specified properties about
them.

Python strings are modelled as `List Char`; Python `Optional[T]` as
`Option T`; functions that can raise return `Except`-style results or an
explicit result inductive.  Subprocess invocations are modelled by passing
their observed outcomes (`RunResult`) as explicit inputs.
-/

namespace StashMCP

/-! ## Python string primitives over `List Char` -/

/-- Characters stripped by Python `str.strip()` / skipped by `str.split()`. -/
def isSpaceChar (c : Char) : Bool :=
  c = ' ' || c = '\t' || c = '\n' || c = '\r' || c = '\x0b' || c = '\x0c'

/-- Python `str.strip()`: drop leading and trailing whitespace. -/
def trimChars (l : List Char) : List Char :=
  ((l.dropWhile isSpaceChar).reverse.dropWhile isSpaceChar).reverse

/-- Split on newline characters, as Python `str.splitlines()` does for
`\n`-separated subprocess output (git output never uses the exotic
line-boundary characters). A trailing newline yields no trailing empty
line, matching `splitlines`. -/
def splitLinesAux (cur : List Char) : List Char → List (List Char)
  | [] => if cur.isEmpty then [] else [cur.reverse]
  | c :: cs =>
    if c = '\n' then cur.reverse :: splitLinesAux [] cs
    else splitLinesAux (c :: cur) cs

def splitLines (l : List Char) : List (List Char) :=
  splitLinesAux [] l

/-- Python `line.split("\t", 1)`: split at the first tab only.
Returns `none` when the line holds no tab (Python would return a
one-element list, which the callers skip). -/
def splitOnceTab : List Char → Option (List Char × List Char)
  | [] => none
  | c :: cs =>
    if c = '\t' then some ([], cs)
    else match splitOnceTab cs with
      | none => none
      | some (pre, post) => some (c :: pre, post)

/-- Python `str.split()` with no argument: split on whitespace runs,
dropping empty fields. -/
def splitWsAux (acc : List Char) : List Char → List (List Char)
  | [] => if acc.isEmpty then [] else [acc.reverse]
  | c :: cs =>
    if isSpaceChar c then
      if acc.isEmpty then splitWsAux [] cs
      else acc.reverse :: splitWsAux [] cs
    else splitWsAux (c :: acc) cs

def splitWs (l : List Char) : List (List Char) :=
  splitWsAux [] l

/-- Python `s.startswith(p)`. -/
def hasPrefixChars : List Char → List Char → Bool
  | _, [] => true
  | [], _ :: _ => false
  | c :: cs, p :: ps => c = p && hasPrefixChars cs ps

example : trimChars " ab\t".data = "ab".data := by decide
example : splitLines "A\tx\nD\ty\n".data = ["A\tx".data, "D\ty".data] := by decide
example : splitOnceTab "R100\ta.md\tb.md".data = some ("R100".data, "a.md\tb.md".data) := by decide
example : splitWs "ab  cd ".data = ["ab".data, "cd".data] := by decide
example : hasPrefixChars "author-time 5".data "author-time ".data = true := by decide

/-! ## `git_backend._parse_pull_file_statuses`

Embeds the parser of `git diff --name-status` output
(`src/stash_mcp/git_backend.py`, `_parse_pull_file_statuses`).
The Python function iterates over `output.strip().splitlines()`, skips
blank lines and lines without a tab, and classifies each remaining line by
the first character of its (stripped) status field: `A` → added, `D` →
deleted, `M`/`R`/`C` → modified; anything else is ignored.
-/

inductive FileStatusCat
  | added
  | modified
  | deleted
  deriving DecidableEq, Repr

/-- Classification of one `--name-status` line, or `none` when the line is
skipped (blank, no tab, or unrecognised status letter). The path is the
stripped remainder after the first tab, so a rename line
`R100<tab>a.md<tab>b.md` keeps both paths joined by the inner tab. -/
def classifyLine (line : List Char) : Option (FileStatusCat × List Char) :=
  if (trimChars line).isEmpty then none
  else
    match splitOnceTab line with
    | none => none
    | some (st, p) =>
      let status := trimChars st
      let path := trimChars p
      if hasPrefixChars status "A".data then some (.added, path)
      else if hasPrefixChars status "D".data then some (.deleted, path)
      else if hasPrefixChars status "M".data || hasPrefixChars status "R".data
          || hasPrefixChars status "C".data then some (.modified, path)
      else none

/-- Line-by-line accumulation of the three lists, preserving line order. -/
def parseLines : List (List Char) → List (List Char) × List (List Char) × List (List Char)
  | [] => ([], [], [])
  | line :: rest =>
    let (a, m, d) := parseLines rest
    match classifyLine line with
    | some (.added, p) => (p :: a, m, d)
    | some (.modified, p) => (a, p :: m, d)
    | some (.deleted, p) => (a, m, p :: d)
    | none => (a, m, d)

/-- `_parse_pull_file_statuses(git_diff_output)` returning
`(added, modified, deleted)`. -/
def _parse_pull_file_statuses (git_diff_output : List Char) :
    List (List Char) × List (List Char) × List (List Char) :=
  parseLines (splitLines (trimChars git_diff_output))

/-- The stream of paths that the parser classifies, in line order; used to
state disjointness of the three output lists. -/
def parsedPaths (lines : List (List Char)) : List (List Char) :=
  lines.filterMap (fun l => (classifyLine l).map Prod.snd)

example : _parse_pull_file_statuses "A\tnew.txt\nM\texisting.txt\nD\tremoved.txt\n".data
    = (["new.txt".data], ["existing.txt".data], ["removed.txt".data]) := by decide
example : _parse_pull_file_statuses "R100\ta.md\tb.md".data
    = ([], ["a.md\tb.md".data], []) := by decide
example : _parse_pull_file_statuses "D\ta.md\nA\tb.md\n".data
    = (["b.md".data], [], ["a.md".data]) := by decide
example : _parse_pull_file_statuses "".data = ([], [], []) := by decide

/-! ## `git_backend.GitBackend.pull`

The subprocess calls made by `pull` are modelled by a `PullEnv` record
holding the observed `CompletedProcess` outcome of each invocation:
`git rev-parse HEAD` before the pull, `git pull remote branch`,
`git rev-parse HEAD` after, and `git diff --name-status old new`
(consulted only when both heads resolved and differ).
-/

structure RunResult where
  returncode : Int
  stdout : List Char
  stderr : List Char
  deriving DecidableEq, Repr

structure PullEnv where
  headBefore : RunResult
  pullRun : RunResult
  headAfter : RunResult
  diffRun : RunResult
  deriving DecidableEq, Repr

/-- `git_backend.PullResult` dataclass. -/
structure PullResult where
  success : Bool
  changed_files : List (List Char) := []
  added_files : List (List Char) := []
  modified_files : List (List Char) := []
  deleted_files : List (List Char) := []
  message : List Char := []
  deriving DecidableEq, Repr

/-- Python truthiness of `Optional[str]`: `None` and `""` are falsy. -/
def optTruthy : Option (List Char) → Bool
  | some s => !s.isEmpty
  | none => false

/-- `GitBackend.pull(remote, branch, recursive)` as a function of the
subprocess outcomes. Mirrors `git_backend.py` lines 487-564:
snapshot `HEAD`, run the pull (returning `success=False` with the stripped
stderr on non-zero exit — pull never raises), then diff the old and new
heads when both resolved and differ. -/
def pull (env : PullEnv) : PullResult :=
  let old_head : Option (List Char) :=
    if env.headBefore.returncode = 0 then some (trimChars env.headBefore.stdout) else none
  if env.pullRun.returncode ≠ 0 then
    { success := false, message := trimChars env.pullRun.stderr }
  else
    let new_head : Option (List Char) :=
      if env.headAfter.returncode = 0 then some (trimChars env.headAfter.stdout) else none
    let lists :=
      if optTruthy old_head ∧ optTruthy new_head ∧ old_head ≠ new_head then
        if env.diffRun.returncode = 0 then _parse_pull_file_statuses env.diffRun.stdout
        else ([], [], [])
      else ([], [], [])
    { success := true
      changed_files := lists.1 ++ lists.2.1 ++ lists.2.2
      added_files := lists.1
      modified_files := lists.2.1
      deleted_files := lists.2.2
      message := trimChars env.pullRun.stdout }

/-- A pull whose head moved by one revision in which git's rename detection
reported `a.md` renamed to `b.md`. -/
def envRename : PullEnv :=
  { headBefore := ⟨0, "1111\n".data, []⟩
    pullRun := ⟨0, "Updating 1111..2222\n".data, []⟩
    headAfter := ⟨0, "2222\n".data, []⟩
    diffRun := ⟨0, "R100\ta.md\tb.md\n".data, []⟩ }

example : (pull envRename).modified_files = ["a.md\tb.md".data] := by decide
example : (pull envRename).deleted_files = [] := by decide

/-! ## `git_backend._parse_blame_porcelain` and `GitBackend.blame`

Timestamps are modelled as `Int` unix seconds; the Python
`datetime.now(UTC)` fallback becomes an explicit `now` parameter.
-/

/-- `git_backend.BlameLine` dataclass. -/
structure BlameLine where
  line_number : Int
  commit_hash : List Char
  author : List Char
  timestamp : Int
  summary : List Char
  content : List Char
  deriving DecidableEq, Repr

/-- The metadata dictionary accumulated per commit (`current_meta` /
`commits[hash]` in the Python). -/
structure BlameMeta where
  author : Option (List Char) := none
  timestamp : Option Int := none
  summary : Option (List Char) := none
  deriving DecidableEq, Repr

def isHexDigitLower (c : Char) : Bool :=
  ('0' ≤ c && c ≤ '9') || ('a' ≤ c && c ≤ 'f')

/-- Python `int(token)` on a whitespace-free token: optional sign followed
by at least one decimal digit; anything else raises `ValueError` (`none`). -/
def parseIntChars (l : List Char) : Option Int :=
  let digits (ds : List Char) : Option Nat :=
    if ds.isEmpty ∨ ¬ ds.all (fun c => '0' ≤ c && c ≤ '9') then none
    else some (ds.foldl (fun n c => 10 * n + (c.toNat - '0'.toNat)) 0)
  match l with
  | '-' :: rest => (digits rest).map (fun n => -(n : Int))
  | '+' :: rest => (digits rest).map (fun n => (n : Int))
  | _ => (digits l).map (fun n => (n : Int))

/-- Parser state threaded through the line loop of
`_parse_blame_porcelain`. -/
structure BlameState where
  commits : List (List Char × BlameMeta) := []
  current_hash : Option (List Char) := none
  current_meta : BlameMeta := {}
  line_number : Int := 0
  lines : List BlameLine := []
  deriving Repr

def lookupCommit (commits : List (List Char × BlameMeta)) (h : List Char) :
    Option BlameMeta :=
  (commits.find? (fun e => e.1 = h)).map Prod.snd

def insertCommit (commits : List (List Char × BlameMeta)) (h : List Char)
    (m : BlameMeta) : List (List Char × BlameMeta) :=
  (h, m) :: commits.filter (fun e => ¬ e.1 = h)

/-- One iteration of the `for raw_line in output.splitlines()` loop of
`_parse_blame_porcelain` (`git_backend.py` lines 57-106). -/
def blameStep (now : Int) (st : BlameState) (raw_line : List Char) : BlameState :=
  match raw_line with
  | '\t' :: content =>
    -- Tab-prefixed content line: closes the entry for the current commit.
    match st.current_hash with
    | none => st
    | some h =>
      { st with
        commits := insertCommit st.commits h st.current_meta
        lines := st.lines ++ [
          { line_number := st.line_number
            commit_hash := h
            author := st.current_meta.author.getD []
            timestamp := st.current_meta.timestamp.getD now
            summary := st.current_meta.summary.getD []
            content := content }] }
  | _ =>
    let parts := splitWs raw_line
    if 3 ≤ parts.length ∧ (parts.headD []).length = 40
        ∧ (parts.headD []).all isHexDigitLower then
      let newHash := parts.headD []
      let ln := match parseIntChars (parts.getD 2 []) with
        | some n => n
        | none => 0
      let meta := match lookupCommit st.commits newHash with
        | some m => m
        | none => {}
      { st with current_hash := some newHash, line_number := ln, current_meta := meta }
    else
      match st.current_hash with
      | none => st
      | some _ =>
        if hasPrefixChars raw_line "author ".data
            ∧ ¬ hasPrefixChars raw_line "author-".data then
          { st with current_meta := { st.current_meta with author := some (raw_line.drop 7) } }
        else if hasPrefixChars raw_line "author-time ".data then
          let ts := match parseIntChars (raw_line.drop 12) with
            | some t => t
            | none => now
          { st with current_meta := { st.current_meta with timestamp := some ts } }
        else if hasPrefixChars raw_line "summary ".data then
          { st with current_meta := { st.current_meta with summary := some (raw_line.drop 8) } }
        else st

/-- `_parse_blame_porcelain(output)`. -/
def _parse_blame_porcelain (now : Int) (output : List Char) : List BlameLine :=
  ((splitLines output).foldl (blameStep now) {}).lines

/-- The argument list built by `GitBackend.blame` (`git_backend.py` lines
274-277): the `-L start,end` range is appended only when **both** bounds
are present. -/
def blame_args (path : List Char) (start_line end_line : Option Int) :
    List (List Char) :=
  let base := ["git".data, "blame".data, "--porcelain".data]
  let withRange :=
    match start_line, end_line with
    | some s, some e => base ++ ["-L".data, (toString s ++ "," ++ toString e).data]
    | _, _ => base
  withRange ++ [path]

/-- `GitBackend.blame(path, start_line, end_line)`: run
`git blame --porcelain [-L s,e] path` (the subprocess modelled by `run`),
return `[]` on non-zero exit, else parse the porcelain output. -/
def blame (run : List (List Char) → RunResult) (now : Int) (path : List Char)
    (start_line end_line : Option Int) : List BlameLine :=
  let result := run (blame_args path start_line end_line)
  if result.returncode ≠ 0 then []
  else _parse_blame_porcelain now result.stdout

/-- A run environment whose blame invocation fails. -/
def failingRun : List (List Char) → RunResult :=
  fun _ => ⟨128, [], "fatal: no such path".data⟩

/-! ## `transactions.TransactionManager`

The manager's mutable fields (`transactions.py` lines 55-58) form the
state.  The `asyncio.Lock` is 0-or-1-held, so a `Bool`.  Each operation is
a pure function from the pre-state (plus the outcomes of the git
subprocess calls it makes, passed as `Bool` success flags because commit /
push / reset either return or raise) to a result, the post-state and the
ordered list of observable events it performs.  The `asyncio.wait_for`
lock acquisition is modelled at the instant the wait budget expires: if
the lock is still held the caller receives the "try again" error.  The
pause/resume callbacks are modelled as registered
(`set_sync_callbacks` has been called, as `mcp_server.py` does when sync
is enabled). -/

/-- Observable events of a transaction-manager operation, in program
order. -/
inductive TMEvent
  | lockAcquired      -- self._lock.acquire() succeeded
  | activeSet         -- _active_session/_active_id assigned
  | pauseCalled       -- self._pause_sync()
  | timeoutScheduled  -- asyncio.create_task(self._auto_abort(timeout))
  | gitCommit         -- self.git.commit(...) attempted
  | gitPush           -- self.git.push(...) attempted
  | gitResetHard      -- self.git.reset_hard() attempted
  | activeCleared     -- _active_session/_active_id set to None
  | resumeCalled      -- self._resume_sync()
  | lockReleased      -- self._lock.release()
  deriving DecidableEq, Repr, BEq

/-- The mutable state of a `TransactionManager`. -/
structure TMState where
  locked : Bool
  activeSession : Option String
  activeId : Option String
  timeoutPending : Bool
  deriving DecidableEq, Repr

/-- State of a freshly constructed manager (`__init__`). -/
def initialTM : TMState :=
  { locked := false, activeSession := none, activeId := none, timeoutPending := false }

inductive StartResult
  | ok (txnId : String)
  | alreadyActive      -- "A transaction is already active for this session."
  | lockUnavailable    -- "Transaction lock unavailable, try again later."
  deriving DecidableEq, Repr

inductive EndResult
  | ok
  | notOwner           -- TransactionError "No active transaction for this session."
  | gitError           -- RuntimeError propagated from commit/push/reset
  deriving DecidableEq, Repr

/-- `TransactionManager._clear_and_release` (`transactions.py` lines
207-213): clear the active fields, call the resume hook, then release the
lock if held. -/
def _clear_and_release (s : TMState) : TMState × List TMEvent :=
  let s1 := { s with activeSession := none, activeId := none }
  if s1.locked then
    ({ s1 with locked := false },
     [TMEvent.activeCleared, TMEvent.resumeCalled, TMEvent.lockReleased])
  else (s1, [TMEvent.activeCleared, TMEvent.resumeCalled])

/-- `TransactionManager._validate_session`: the call is valid exactly when
`session_id` equals the owning session. -/
def _validate_session (s : TMState) (session_id : String) : Bool :=
  s.activeSession = some session_id

/-- `TransactionManager._cancel_timeout`: cancel the deadline task. -/
def _cancel_timeout (s : TMState) : TMState :=
  { s with timeoutPending := false }

/-- `TransactionManager.start_transaction(session_id, timeout, lock_wait)`
(`transactions.py` lines 79-124).  `txnId` stands for the fresh
`uuid.uuid4()` string. -/
def start_transaction (s : TMState) (session_id txnId : String) :
    StartResult × TMState × List TMEvent :=
  if s.activeSession = some session_id then
    (.alreadyActive, s, [])
  else if s.locked then
    (.lockUnavailable, s, [])
  else
    (.ok txnId,
     { locked := true, activeSession := some session_id, activeId := some txnId,
       timeoutPending := true },
     [TMEvent.lockAcquired, TMEvent.activeSet, TMEvent.pauseCalled,
      TMEvent.timeoutScheduled])

/-- `TransactionManager.end_transaction(session_id, message, author,
sync_remote, sync_branch)` (`transactions.py` lines 126-155).
`commitOk`/`pushOk` are the outcomes of the git calls; `pushRequested`
models `sync_remote and sync_branch` being truthy.  The commit (and, on
its success, the push) runs inside `try`, and `_clear_and_release` runs in
the `finally` block on every path. -/
def end_transaction (s : TMState) (session_id : String)
    (commitOk pushRequested pushOk : Bool) :
    EndResult × TMState × List TMEvent :=
  if _validate_session s session_id then
    let s1 := _cancel_timeout s
    let bodyEvents :=
      if commitOk ∧ pushRequested then [TMEvent.gitCommit, TMEvent.gitPush]
      else [TMEvent.gitCommit]
    let ok : Bool := commitOk && (!pushRequested || pushOk)
    let (s2, cleanup) := _clear_and_release s1
    ((if ok then .ok else .gitError), s2, bodyEvents ++ cleanup)
  else (.notOwner, s, [])

/-- `TransactionManager.abort_transaction(session_id)` (`transactions.py`
lines 157-172).  `resetOk` is the outcome of `git.reset_hard()`; cleanup
runs in `finally` either way. -/
def abort_transaction (s : TMState) (session_id : String) (resetOk : Bool) :
    EndResult × TMState × List TMEvent :=
  if _validate_session s session_id then
    let s1 := _cancel_timeout s
    let (s2, cleanup) := _clear_and_release s1
    ((if resetOk then .ok else .gitError), s2, [TMEvent.gitResetHard] ++ cleanup)
  else (.notOwner, s, [])

/-- `TransactionManager._auto_abort(timeout)` at the moment its sleep
finishes (`transactions.py` lines 174-192).  `cancelled` models the task
having been cancelled during the sleep; a fired task that finds no active
transaction returns immediately.  `resetOk` is the outcome of
`git.reset_hard()`, whose exception is caught and logged, after which
`_clear_and_release` runs unconditionally. -/
def _auto_abort (s : TMState) (cancelled _resetOk : Bool) :
    TMState × List TMEvent :=
  if cancelled then (s, [])
  else if s.activeId = none then (s, [])
  else
    let (s2, cleanup) := _clear_and_release s
    (s2, [TMEvent.gitResetHard] ++ cleanup)

/-- `TransactionManager._require_active_transaction` (`transactions.py`
lines 215-225): fails when no transaction is active, or when the ambient
session id (`_get_current_session_id()`, which returns `None` when no MCP
context is available) is present and differs from the owner.  Returns
`true` when the check passes. -/
def _require_active_transaction (s : TMState) (callerSession : Option String) :
    Bool :=
  if s.activeId = none then false
  else
    match callerSession with
    | none => true
    | some sid => s.activeSession = some sid

/-- The storage operation a gated write would delegate to the inner
`FileSystem`. -/
inductive FsOp
  | write (path content : String)
  | delete (path : String)
  | move (source_path dest_path : String)
  | mkdir (path : String)
  deriving DecidableEq, Repr

/-- `TransactionError` raised by the write gate. -/
inductive TxnErr
  | noActiveTransaction
  deriving DecidableEq, Repr

/-- `TransactionManager.write_file`: gate first, storage only on success. -/
def write_file (s : TMState) (callerSession : Option String)
    (path content : String) : Except TxnErr FsOp :=
  if _require_active_transaction s callerSession then .ok (.write path content)
  else .error .noActiveTransaction

/-- `TransactionManager.delete_file`. -/
def delete_file (s : TMState) (callerSession : Option String)
    (path : String) : Except TxnErr FsOp :=
  if _require_active_transaction s callerSession then .ok (.delete path)
  else .error .noActiveTransaction

/-- `TransactionManager.move_file`. -/
def move_file (s : TMState) (callerSession : Option String)
    (source_path dest_path : String) : Except TxnErr FsOp :=
  if _require_active_transaction s callerSession then .ok (.move source_path dest_path)
  else .error .noActiveTransaction

/-- `TransactionManager.create_directory`. -/
def create_directory (s : TMState) (callerSession : Option String)
    (path : String) : Except TxnErr FsOp :=
  if _require_active_transaction s callerSession then .ok (.mkdir path)
  else .error .noActiveTransaction

/-! ### Reachable states -/

/-- The state-changing entry points of the manager, for quantifying over
reachable states. -/
inductive TMOp
  | start (session_id txnId : String)
  | endTxn (session_id : String) (commitOk pushRequested pushOk : Bool)
  | abort (session_id : String) (resetOk : Bool)
  | autoAbort (cancelled resetOk : Bool)
  deriving DecidableEq, Repr

def applyOp (s : TMState) : TMOp → TMState
  | .start sid tid => (start_transaction s sid tid).2.1
  | .endTxn sid c pr po => (end_transaction s sid c pr po).2.1
  | .abort sid r => (abort_transaction s sid r).2.1
  | .autoAbort c r => (_auto_abort s c r).1

/-- The state after running a sequence of operations from a fresh
manager. -/
def runOps (ops : List TMOp) : TMState :=
  ops.foldl applyOp initialTM

/-- Invariant tying the manager's fields together: the lock is held exactly
while a session owns the transaction, and the owner and the transaction id
are recorded together. -/
def TMInv (s : TMState) : Prop :=
  (s.locked = true ↔ s.activeSession.isSome)
  ∧ (s.activeSession.isSome ↔ s.activeId.isSome)

example : runOps [TMOp.start "A" "t1"] =
    { locked := true, activeSession := some "A", activeId := some "t1",
      timeoutPending := true } := by decide
example : runOps [TMOp.start "A" "t1", TMOp.abort "A" true] = initialTM := by decide

/-! ## `TransactionManager.get_transaction_status`

`list_content_transactions` in `mcp_server.py` (lines 1171-1185) returns
`tm.get_transaction_status(session_id)`, but no definition of that method
exists in the source tree. -/

structure TransactionStatus where
  active : Bool
  id : Option String
  owner : Option String
  isOwner : Bool
  deriving DecidableEq, Repr

/-- Modelled from the spec: `TransactionManager.get_transaction_status` is
invoked by the `list_content_transactions` tool but is missing from the
source tree.  Per the spec, "status(sessionId): read-only; reports whether
a transaction is active, its identifier, its owner, and whether sessionId
is that owner", i.e. `{active: bool, id?, owner?, isOwner: bool}`.  The
state is returned unchanged to express read-onlyness. -/
def get_transaction_status (s : TMState) (session_id : String) :
    TransactionStatus × TMState :=
  ({ active := s.activeId.isSome
     id := s.activeId
     owner := s.activeSession
     isOwner := s.activeSession == some session_id }, s)

/-! ## Helper lemmas -/

/-- `_clear_and_release` always ends with the lock free and no active
transaction; only the (untouched) timeout-task field survives. -/
theorem clear_and_release_state (s : TMState) :
    (_clear_and_release s).1 =
      { locked := false, activeSession := none, activeId := none,
        timeoutPending := s.timeoutPending } := by
  cases s with
  | mk locked as ai tp =>
    unfold _clear_and_release
    cases locked <;> simp

/-- When the lock is held, `_clear_and_release` clears the transaction,
calls the resume hook, and then releases the lock — in that order. -/
theorem clear_and_release_events (s : TMState) (h : s.locked = true) :
    (_clear_and_release s).2 =
      [TMEvent.activeCleared, TMEvent.resumeCalled, TMEvent.lockReleased] := by
  unfold _clear_and_release
  simp [h]

/-- Post-state of a valid `end_transaction`, for any git outcome. -/
theorem end_transaction_state (s : TMState) (sid : String)
    (h : s.activeSession = some sid) (c pr po : Bool) :
    (end_transaction s sid c pr po).2.1 =
      { locked := false, activeSession := none, activeId := none,
        timeoutPending := false } := by
  unfold end_transaction
  simp [_validate_session, h, clear_and_release_state, _cancel_timeout]

/-- Post-state of a valid `abort_transaction`, for any git outcome. -/
theorem abort_transaction_state (s : TMState) (sid : String)
    (h : s.activeSession = some sid) (r : Bool) :
    (abort_transaction s sid r).2.1 =
      { locked := false, activeSession := none, activeId := none,
        timeoutPending := false } := by
  unfold abort_transaction
  simp [_validate_session, h, clear_and_release_state, _cancel_timeout]

/-- Post-state of a fired deadline task that found an active transaction. -/
theorem auto_abort_state (s : TMState) (h : ¬ s.activeId = none) (r : Bool) :
    (_auto_abort s false r).1 =
      { locked := false, activeSession := none, activeId := none,
        timeoutPending := s.timeoutPending } := by
  unfold _auto_abort
  simp [h, clear_and_release_state]

theorem TMInv_initial : TMInv initialTM := by
  constructor <;> simp [initialTM]

/-- Every entry point of the manager preserves the state invariant. -/
theorem TMInv_applyOp (s : TMState) (inv : TMInv s) (op : TMOp) :
    TMInv (applyOp s op) := by
  obtain ⟨h1, h2⟩ := inv
  cases op with
  | start sid tid =>
    simp only [applyOp, start_transaction]
    split
    · exact ⟨h1, h2⟩
    · split
      · exact ⟨h1, h2⟩
      · constructor <;> simp
  | endTxn sid c pr po =>
    simp only [applyOp, end_transaction]
    split
    · constructor <;> simp [clear_and_release_state]
    · exact ⟨h1, h2⟩
  | abort sid r =>
    simp only [applyOp, abort_transaction]
    split
    · constructor <;> simp [clear_and_release_state]
    · exact ⟨h1, h2⟩
  | autoAbort c r =>
    simp only [applyOp, _auto_abort]
    split
    · exact ⟨h1, h2⟩
    · split
      · exact ⟨h1, h2⟩
      · constructor <;> simp [clear_and_release_state]

theorem TMInv_foldl (ops : List TMOp) (s : TMState) (h : TMInv s) :
    TMInv (ops.foldl applyOp s) := by
  induction ops generalizing s with
  | nil => exact h
  | cons op rest ih => exact ih _ (TMInv_applyOp s h op)

/-- Every reachable state of the manager satisfies the invariant. -/
theorem TMInv_runOps (ops : List TMOp) : TMInv (runOps ops) :=
  TMInv_foldl ops initialTM TMInv_initial

/-- Every added path was classified from some line. -/
theorem mem_parsedPaths_of_added (lines : List (List Char)) (x : List Char)
    (hx : x ∈ (parseLines lines).1) : x ∈ parsedPaths lines := by
  induction lines with
  | nil => simp [parseLines] at hx
  | cons l rest ih =>
    simp only [parseLines] at hx
    simp only [parsedPaths, List.filterMap_cons]
    rcases hcl : classifyLine l with _ | ⟨cat, p⟩ <;> rw [hcl] at hx
    · simpa [parsedPaths] using ih hx
    · cases cat <;> simp_all [parsedPaths]
      · rcases hx with rfl | hx
        · left; rfl
        · right; exact ih hx

/-- Every modified path was classified from some line. -/
theorem mem_parsedPaths_of_modified (lines : List (List Char)) (x : List Char)
    (hx : x ∈ (parseLines lines).2.1) : x ∈ parsedPaths lines := by
  induction lines with
  | nil => simp [parseLines] at hx
  | cons l rest ih =>
    simp only [parseLines] at hx
    simp only [parsedPaths, List.filterMap_cons]
    rcases hcl : classifyLine l with _ | ⟨cat, p⟩ <;> rw [hcl] at hx
    · simpa [parsedPaths] using ih hx
    · cases cat <;> simp_all [parsedPaths]
      · rcases hx with rfl | hx
        · left; rfl
        · right; exact ih hx

/-- Every deleted path was classified from some line. -/
theorem mem_parsedPaths_of_deleted (lines : List (List Char)) (x : List Char)
    (hx : x ∈ (parseLines lines).2.2) : x ∈ parsedPaths lines := by
  induction lines with
  | nil => simp [parseLines] at hx
  | cons l rest ih =>
    simp only [parseLines] at hx
    simp only [parsedPaths, List.filterMap_cons]
    rcases hcl : classifyLine l with _ | ⟨cat, p⟩ <;> rw [hcl] at hx
    · simpa [parsedPaths] using ih hx
    · cases cat <;> simp_all [parsedPaths]
      · rcases hx with rfl | hx
        · left; rfl
        · right; exact ih hx

/-- Each diff line lands in exactly one of the three lists, so when no
path occurs on two classified lines the lists are pairwise disjoint. -/
theorem parseLines_disjoint (lines : List (List Char))
    (h : (parsedPaths lines).Nodup) :
    (∀ x ∈ (parseLines lines).1, x ∉ (parseLines lines).2.1)
    ∧ (∀ x ∈ (parseLines lines).1, x ∉ (parseLines lines).2.2)
    ∧ (∀ x ∈ (parseLines lines).2.1, x ∉ (parseLines lines).2.2) := by
  induction lines with
  | nil => simp [parseLines]
  | cons l rest ih =>
    simp only [parsedPaths, List.filterMap_cons] at h
    simp only [parseLines]
    rcases hcl : classifyLine l with _ | ⟨cat, p⟩ <;> rw [hcl] at h
    · exact ih h
    · cases cat
      · -- added
        obtain ⟨hp, hrest⟩ := List.nodup_cons.mp h
        obtain ⟨iam, iad, imd⟩ := ih hrest
        refine ⟨?_, ?_, imd⟩ <;> intro x hx
        · rcases List.mem_cons.mp hx with rfl | hx
          · exact fun hc => hp (mem_parsedPaths_of_modified rest x hc)
          · exact iam x hx
        · rcases List.mem_cons.mp hx with rfl | hx
          · exact fun hc => hp (mem_parsedPaths_of_deleted rest x hc)
          · exact iad x hx
      · -- modified
        obtain ⟨hp, hrest⟩ := List.nodup_cons.mp h
        obtain ⟨iam, iad, imd⟩ := ih hrest
        refine ⟨?_, iad, ?_⟩
        · intro x hx hc
          rcases List.mem_cons.mp hc with rfl | hc
          · exact hp (mem_parsedPaths_of_added rest x hx)
          · exact iam x hx hc
        · intro x hx
          rcases List.mem_cons.mp hx with rfl | hx
          · exact fun hc => hp (mem_parsedPaths_of_deleted rest x hc)
          · exact imd x hx
      · -- deleted
        obtain ⟨hp, hrest⟩ := List.nodup_cons.mp h
        obtain ⟨iam, iad, imd⟩ := ih hrest
        refine ⟨iam, ?_, ?_⟩
        · intro x hx hc
          rcases List.mem_cons.mp hc with rfl | hc
          · exact hp (mem_parsedPaths_of_added rest x hx)
          · exact iad x hx hc
        · intro x hx hc
          rcases List.mem_cons.mp hc with rfl | hc
          · exact hp (mem_parsedPaths_of_modified rest x hx)
          · exact imd x hx hc

/-! ## Claims -/

/-- **C9**: the transaction-status operation is read-only (the state comes
back unchanged) and reports whether a transaction is active, its id, its
owner, and whether the calling session is that owner. -/
theorem transaction_status_spec (s : TMState) (session_id : String) :
    (get_transaction_status s session_id).2 = s
    ∧ ((get_transaction_status s session_id).1.active = true ↔ s.activeId.isSome)
    ∧ (get_transaction_status s session_id).1.id = s.activeId
    ∧ (get_transaction_status s session_id).1.owner = s.activeSession
    ∧ ((get_transaction_status s session_id).1.isOwner = true
        ↔ s.activeSession = some session_id) := by
  refine ⟨rfl, Iff.rfl, rfl, rfl, ?_⟩
  simp [get_transaction_status]

/-- **C10**: when exactly one of `start_line`/`end_line` is supplied, blame
silently drops the range and behaves exactly as a call without any range,
for every path and every subprocess environment. -/
theorem blame_range_requires_both_bounds
    (run : List (List Char) → RunResult) (now : Int) (path : List Char)
    (start_line end_line : Option Int)
    (h : (start_line.isSome ∧ end_line = none) ∨ (start_line = none ∧ end_line.isSome)) :
    blame run now path start_line end_line = blame run now path none none := by
  have hargs : blame_args path start_line end_line = blame_args path none none := by
    rcases h with ⟨hs, he⟩ | ⟨hs, he⟩
    · subst he
      cases start_line with
      | none => rfl
      | some v => rfl
    · subst hs
      cases end_line with
      | none => rfl
      | some v => rfl
  unfold blame
  rw [hargs]

/-- Witness for C10 at a concrete input. -/
theorem blame_range_requires_both_bounds_witness :
    blame failingRun 0 "notes.md".data (some 3) none
      = blame failingRun 0 "notes.md".data none none :=
  blame_range_requires_both_bounds failingRun 0 "notes.md".data (some 3) none
    (Or.inl ⟨rfl, rfl⟩)

/-- **C5**: a session that is not the owner of the active transaction can
neither end nor abort it: both calls report the ownership error and leave
the whole state — owner, id, lock, timeout task — untouched, performing no
git operation and firing no hook. -/
theorem owner_only_termination (s : TMState) (owner sid : String)
    (hown : s.activeSession = some owner) (hne : sid ≠ owner)
    (commitOk pushRequested pushOk resetOk : Bool) :
    end_transaction s sid commitOk pushRequested pushOk = (.notOwner, s, [])
    ∧ abort_transaction s sid resetOk = (.notOwner, s, []) := by
  have hv : _validate_session s sid = false := by
    unfold _validate_session
    rw [hown]
    simp only [Option.some.injEq]
    exact decide_eq_false (fun heq => hne heq.symm)
  constructor
  · unfold end_transaction
    rw [hv]
    simp
  · unfold abort_transaction
    rw [hv]
    simp

/-- Witness for C5: session `B` cannot end or abort `A`'s transaction. -/
theorem owner_only_termination_witness :
    end_transaction (runOps [TMOp.start "A" "t1"]) "B" true false true
      = (.notOwner, runOps [TMOp.start "A" "t1"], [])
    ∧ abort_transaction (runOps [TMOp.start "A" "t1"]) "B" true
      = (.notOwner, runOps [TMOp.start "A" "t1"], []) :=
  owner_only_termination (runOps [TMOp.start "A" "t1"]) "A" "B"
    (by decide) (by decide) true false true true

/-- **C1**: global mutual exclusion.  In every reachable state at most one
session owns the transaction; while session `A` owns it, any
`start_transaction` by a different session `B` fails with the contention
error and changes nothing; and once `A`'s transaction ends — by commit,
abort, or the deadline task — a start by `B` succeeds. -/
theorem start_mutual_exclusion (ops : List TMOp) (A B txnId : String)
    (hA : (runOps ops).activeSession = some A) (hAB : A ≠ B) :
    (∀ C, (runOps ops).activeSession = some C → C = A)
    ∧ start_transaction (runOps ops) B txnId
        = (.lockUnavailable, runOps ops, [])
    ∧ (∀ c pr po t2,
        (start_transaction (applyOp (runOps ops) (.endTxn A c pr po)) B t2).1
          = .ok t2)
    ∧ (∀ r t2,
        (start_transaction (applyOp (runOps ops) (.abort A r)) B t2).1 = .ok t2)
    ∧ (∀ r t2,
        (start_transaction (applyOp (runOps ops) (.autoAbort false r)) B t2).1
          = .ok t2) := by
  obtain ⟨hlock, hids⟩ := TMInv_runOps ops
  have hlocked : (runOps ops).locked = true := by
    rw [hlock, hA]; rfl
  have hnotB : ¬ (runOps ops).activeSession = some B := by
    rw [hA]
    simp only [Option.some.injEq]
    exact fun heq => hAB heq
  refine ⟨?_, ?_, ?_, ?_, ?_⟩
  · intro C hC
    rw [hA] at hC
    exact (Option.some.injEq _ _ ▸ hC).symm
  · unfold start_transaction
    rw [if_neg hnotB, if_pos hlocked]
  · intro c pr po t2
    have hstate : applyOp (runOps ops) (.endTxn A c pr po)
        = { locked := false, activeSession := none, activeId := none,
            timeoutPending := false } := by
      simp only [applyOp]
      exact end_transaction_state _ _ hA c pr po
    rw [hstate]
    rfl
  · intro r t2
    have hstate : applyOp (runOps ops) (.abort A r)
        = { locked := false, activeSession := none, activeId := none,
            timeoutPending := false } := by
      simp only [applyOp]
      exact abort_transaction_state _ _ hA r
    rw [hstate]
    rfl
  · intro r t2
    have hid : ¬ (runOps ops).activeId = none := by
      have : (runOps ops).activeId.isSome := hids.mp (by rw [hA]; rfl)
      intro hn
      rw [hn] at this
      exact Bool.noConfusion this
    have hstate : applyOp (runOps ops) (.autoAbort false r)
        = { locked := false, activeSession := none, activeId := none,
            timeoutPending := (runOps ops).timeoutPending } := by
      simp only [applyOp]
      exact auto_abort_state _ hid r
    rw [hstate]
    rfl

/-- Witness for C1: with `A` holding a transaction, `B`'s start is refused;
after `A` aborts, `B`'s start succeeds. -/
theorem start_mutual_exclusion_witness :
    start_transaction (runOps [TMOp.start "A" "t1"]) "B" "t2"
      = (.lockUnavailable, runOps [TMOp.start "A" "t1"], [])
    ∧ (start_transaction
        (applyOp (runOps [TMOp.start "A" "t1"]) (.abort "A" true)) "B" "t2").1
      = .ok "t2" :=
  ⟨(start_mutual_exclusion [TMOp.start "A" "t1"] "A" "B" "t2"
      (by decide) (by decide)).2.1,
   (start_mutual_exclusion [TMOp.start "A" "t1"] "A" "B" "t2"
      (by decide) (by decide)).2.2.2.1 true "t2"⟩

/-- **C3**: whenever the owning session ends or aborts its transaction,
then for every outcome of the git commit, push, or reset — success or
raise — the cleanup step runs: the transaction is cleared, the resume hook
fires and the lock is released, all after the git attempt.  No git failure
leaves the system holding the permit. -/
theorem end_abort_always_release (ops : List TMOp) (owner : String)
    (hA : (runOps ops).activeSession = some owner)
    (commitOk pushRequested pushOk resetOk : Bool) :
    ((end_transaction (runOps ops) owner commitOk pushRequested pushOk).2.1
      = { locked := false, activeSession := none, activeId := none,
          timeoutPending := false })
    ∧ ((end_transaction (runOps ops) owner commitOk pushRequested pushOk).2.2
      = (if commitOk ∧ pushRequested
          then [TMEvent.gitCommit, TMEvent.gitPush] else [TMEvent.gitCommit])
        ++ [TMEvent.activeCleared, TMEvent.resumeCalled, TMEvent.lockReleased])
    ∧ ((abort_transaction (runOps ops) owner resetOk).2.1
      = { locked := false, activeSession := none, activeId := none,
          timeoutPending := false })
    ∧ ((abort_transaction (runOps ops) owner resetOk).2.2
      = [TMEvent.gitResetHard, TMEvent.activeCleared, TMEvent.resumeCalled,
         TMEvent.lockReleased]) := by
  obtain ⟨hlock, _⟩ := TMInv_runOps ops
  have hlocked : (runOps ops).locked = true := by
    rw [hlock, hA]; rfl
  have hv : _validate_session (runOps ops) owner = true := by
    unfold _validate_session
    rw [hA]
    simp
  have hcleanlocked : (_cancel_timeout (runOps ops)).locked = true := hlocked
  refine ⟨end_transaction_state _ _ hA _ _ _, ?_,
          abort_transaction_state _ _ hA _, ?_⟩
  · unfold end_transaction
    rw [hv]
    simp only [if_true]
    rw [clear_and_release_events _ hcleanlocked]
  · unfold abort_transaction
    rw [hv]
    simp only [if_true]
    rw [clear_and_release_events _ hcleanlocked]
    rfl

/-- Witness for C3 with a **failing** commit: the lock is still released
and the resume hook still fires after the commit attempt. -/
theorem end_abort_always_release_witness :
    (end_transaction (runOps [TMOp.start "A" "t1"]) "A" false false false).2.1
      = { locked := false, activeSession := none, activeId := none,
          timeoutPending := false }
    ∧ (end_transaction (runOps [TMOp.start "A" "t1"]) "A" false false false).2.2
      = [TMEvent.gitCommit, TMEvent.activeCleared, TMEvent.resumeCalled,
         TMEvent.lockReleased] :=
  ⟨(end_abort_always_release [TMOp.start "A" "t1"] "A" (by decide)
      false false false false).1,
   (end_abort_always_release [TMOp.start "A" "t1"] "A" (by decide)
      false false false false).2.1⟩

/-- **C4**: the deadline task self-heals and is idempotent.  When it fires
while a transaction is active it hard-resets and then releases the lock
and resumes sync — whatever the reset's outcome — so the permit cannot
outlive the timeout; a fired task that finds no active transaction is a
no-op, as is a cancelled one (the race with a normal end/abort); and every
successful start schedules the deadline task. -/
theorem auto_abort_timeout_spec (ops : List TMOp) (resetOk : Bool) :
    (¬ (runOps ops).activeId = none →
      (_auto_abort (runOps ops) false resetOk).1
        = { locked := false, activeSession := none, activeId := none,
            timeoutPending := (runOps ops).timeoutPending }
      ∧ (_auto_abort (runOps ops) false resetOk).2
        = [TMEvent.gitResetHard, TMEvent.activeCleared, TMEvent.resumeCalled,
           TMEvent.lockReleased])
    ∧ ((runOps ops).activeId = none →
        _auto_abort (runOps ops) false resetOk = ((runOps ops), []))
    ∧ (∀ r, _auto_abort (runOps ops) true r = ((runOps ops), []))
    ∧ (∀ sid tid, (start_transaction (runOps ops) sid tid).1 = .ok tid →
        (start_transaction (runOps ops) sid tid).2.1.timeoutPending = true) := by
  obtain ⟨hlock, hids⟩ := TMInv_runOps ops
  refine ⟨?_, ?_, ?_, ?_⟩
  · intro hid
    have hsome : (runOps ops).activeId.isSome := by
      cases hd : (runOps ops).activeId with
      | none => exact absurd hd hid
      | some v => rfl
    have hlocked : (runOps ops).locked = true := by
      rw [hlock]
      exact hids.mpr hsome
    refine ⟨auto_abort_state _ hid resetOk, ?_⟩
    unfold _auto_abort
    rw [if_neg (by simp), if_neg hid]
    show [TMEvent.gitResetHard] ++ (_clear_and_release (runOps ops)).2
        = [TMEvent.gitResetHard, TMEvent.activeCleared, TMEvent.resumeCalled,
           TMEvent.lockReleased]
    rw [clear_and_release_events _ hlocked]
    rfl
  · intro hid
    unfold _auto_abort
    rw [if_neg (by simp), if_pos hid]
  · intro r
    unfold _auto_abort
    rw [if_pos rfl]
  · intro sid tid h
    unfold start_transaction at h ⊢
    by_cases h1 : (runOps ops).activeSession = some sid
    · rw [if_pos h1] at h
      exact absurd h (by simp)
    · rw [if_neg h1] at h ⊢
      by_cases h2 : (runOps ops).locked = true
      · rw [if_pos h2] at h
        exact absurd h (by simp)
      · rw [if_neg h2]

/-- Witness for C4: the fired deadline task frees the permit even when the
hard reset fails, and firing against an idle manager changes nothing. -/
theorem auto_abort_timeout_spec_witness :
    (_auto_abort (runOps [TMOp.start "A" "t1"]) false false).1
      = { locked := false, activeSession := none, activeId := none,
          timeoutPending := (runOps [TMOp.start "A" "t1"]).timeoutPending }
    ∧ _auto_abort (runOps []) false false = ((runOps []), []) :=
  ⟨((auto_abort_timeout_spec [TMOp.start "A" "t1"] false).1 (by decide)).1,
   (auto_abort_timeout_spec [] false).2.1 (by decide)⟩

/-- The write-gate ownership test as the claim words it: the calling
session's ambient identity equals the owner of the currently active
transaction.  Stated from the spec for comparison with the source's
`_require_active_transaction`. -/
def spec_owns_active_transaction (s : TMState) (caller : Option String) : Prop :=
  ∃ sid, caller = some sid ∧ s.activeSession = some sid ∧ s.activeId.isSome

/-- **C2 counterexample**: with `A`'s transaction active, a caller whose
ambient session identity is unavailable (`_get_current_session_id()`
returned `None`) does not own the transaction, yet `write_file` reaches
storage instead of failing — refuting the claim for this calling
session. -/
theorem write_gate_counterexample :
    ¬ spec_owns_active_transaction (runOps [TMOp.start "A" "t1"]) none
    ∧ write_file (runOps [TMOp.start "A" "t1"]) none "f.md" "hello"
        = .ok (.write "f.md" "hello") := by
  constructor
  · rintro ⟨sid, hsid, -⟩
    exact Option.noConfusion hsid
  · rfl

/-- **C2 amended**: every write-capable call checks the gate before any
storage operation; it fails with the no-active-transaction error exactly
when no transaction is active or when the ambient session identity is
available and differs from the owner — a caller with no discoverable
ambient identity passes the gate whenever any transaction is active. -/
theorem write_gate_amended (s : TMState) (caller : Option String)
    (p c src dst d : String) :
    (_require_active_transaction s caller = false →
      write_file s caller p c = .error .noActiveTransaction
      ∧ delete_file s caller d = .error .noActiveTransaction
      ∧ move_file s caller src dst = .error .noActiveTransaction
      ∧ create_directory s caller p = .error .noActiveTransaction)
    ∧ (_require_active_transaction s caller = true →
      write_file s caller p c = .ok (.write p c)
      ∧ delete_file s caller d = .ok (.delete d)
      ∧ move_file s caller src dst = .ok (.move src dst)
      ∧ create_directory s caller p = .ok (.mkdir p))
    ∧ (_require_active_transaction s caller = true
        ↔ s.activeId.isSome ∧ (caller = none ∨ caller = s.activeSession)) := by
  refine ⟨?_, ?_, ?_⟩
  · intro h
    exact ⟨by simp [write_file, h], by simp [delete_file, h],
           by simp [move_file, h], by simp [create_directory, h]⟩
  · intro h
    exact ⟨by simp [write_file, h], by simp [delete_file, h],
           by simp [move_file, h], by simp [create_directory, h]⟩
  · unfold _require_active_transaction
    cases hid : s.activeId with
    | none => simp
    | some tid =>
      cases caller with
      | none => simp
      | some sid => simp [eq_comm]

/-- Witness for C2 amended: with `A`'s transaction active, session `B` is
rejected before storage while owner `A` gets through. -/
theorem write_gate_amended_witness :
    write_file (runOps [TMOp.start "A" "t1"]) (some "B") "f.md" "x"
      = .error .noActiveTransaction
    ∧ write_file (runOps [TMOp.start "A" "t1"]) (some "A") "f.md" "x"
      = .ok (.write "f.md" "x") :=
  ⟨((write_gate_amended (runOps [TMOp.start "A" "t1"]) (some "B")
      "f.md" "x" "s" "d" "e").1 (by decide)).1,
   ((write_gate_amended (runOps [TMOp.start "A" "t1"]) (some "A")
      "f.md" "x" "s" "d" "e").2.1 (by decide)).1⟩

/-- **C6 counterexample**: with the permit identified with the global lock
(the spec's "attempts to acquire the global permit"), the pause hook does
NOT precede permit-granted on start — the lock is acquired first — and the
resume hook does NOT follow permit-released on abort — resume fires before
the lock release. -/
theorem pause_resume_ordering_counterexample :
    ((start_transaction initialTM "A" "t1").2.2.indexOf TMEvent.lockAcquired
      < (start_transaction initialTM "A" "t1").2.2.indexOf TMEvent.pauseCalled)
    ∧ ¬ ((start_transaction initialTM "A" "t1").2.2.indexOf TMEvent.pauseCalled
      < (start_transaction initialTM "A" "t1").2.2.indexOf TMEvent.lockAcquired)
    ∧ (start_transaction initialTM "A" "t1").2.2.contains TMEvent.pauseCalled = true
    ∧ (start_transaction initialTM "A" "t1").2.2.contains TMEvent.lockAcquired = true
    ∧ ((abort_transaction (runOps [TMOp.start "A" "t1"]) "A" true).2.2.indexOf
          TMEvent.resumeCalled
      < (abort_transaction (runOps [TMOp.start "A" "t1"]) "A" true).2.2.indexOf
          TMEvent.lockReleased)
    ∧ ¬ ((abort_transaction (runOps [TMOp.start "A" "t1"]) "A" true).2.2.indexOf
          TMEvent.lockReleased
      < (abort_transaction (runOps [TMOp.start "A" "t1"]) "A" true).2.2.indexOf
          TMEvent.resumeCalled)
    ∧ (abort_transaction (runOps [TMOp.start "A" "t1"]) "A" true).2.2.contains
        TMEvent.resumeCalled = true
    ∧ (abort_transaction (runOps [TMOp.start "A" "t1"]) "A" true).2.2.contains
        TMEvent.lockReleased = true := by
  decide

/-- **C6 amended**: the hooks are invoked synchronously inside
start/end/abort/timeout, with pause invoked after the permit is acquired
and the transaction recorded but before start returns, and resume invoked
after the transaction record is cleared and immediately before the permit
is released, on every termination path including failing commit/push/reset
outcomes.  Since the operations run atomically on the event loop, the sync
poller still never pulls while a transaction is active. -/
theorem pause_resume_ordering_amended (ops1 ops2 : List TMOp)
    (sid tid owner : String) (c pr po r r2 : Bool)
    (hidle : (runOps ops1).activeSession = none)
    (hown : (runOps ops2).activeSession = some owner) :
    (start_transaction (runOps ops1) sid tid).2.2
      = [TMEvent.lockAcquired, TMEvent.activeSet, TMEvent.pauseCalled,
         TMEvent.timeoutScheduled]
    ∧ (end_transaction (runOps ops2) owner c pr po).2.2
      = (if c ∧ pr then [TMEvent.gitCommit, TMEvent.gitPush]
          else [TMEvent.gitCommit])
        ++ [TMEvent.activeCleared, TMEvent.resumeCalled, TMEvent.lockReleased]
    ∧ (abort_transaction (runOps ops2) owner r).2.2
      = [TMEvent.gitResetHard, TMEvent.activeCleared, TMEvent.resumeCalled,
         TMEvent.lockReleased]
    ∧ (_auto_abort (runOps ops2) false r2).2
      = [TMEvent.gitResetHard, TMEvent.activeCleared, TMEvent.resumeCalled,
         TMEvent.lockReleased] := by
  obtain ⟨hlock1, _⟩ := TMInv_runOps ops1
  obtain ⟨hlock2, hids2⟩ := TMInv_runOps ops2
  have hfree : ¬ (runOps ops1).locked = true := by
    rw [hlock1, hidle]
    simp
  have hnots : ¬ (runOps ops1).activeSession = some sid := by
    rw [hidle]
    simp
  have hlocked2 : (runOps ops2).locked = true := by
    rw [hlock2, hown]; rfl
  have hv : _validate_session (runOps ops2) owner = true := by
    unfold _validate_session
    rw [hown]
    simp
  have hid2 : ¬ (runOps ops2).activeId = none := by
    have hsome : (runOps ops2).activeId.isSome := hids2.mp (by rw [hown]; rfl)
    intro hn
    rw [hn] at hsome
    exact Bool.noConfusion hsome
  refine ⟨?_, ?_, ?_, ?_⟩
  · unfold start_transaction
    rw [if_neg hnots, if_neg hfree]
  · unfold end_transaction
    rw [hv]
    simp only [if_true]
    rw [clear_and_release_events _ (show (_cancel_timeout (runOps ops2)).locked
        = true from hlocked2)]
  · unfold abort_transaction
    rw [hv]
    simp only [if_true]
    rw [clear_and_release_events _ (show (_cancel_timeout (runOps ops2)).locked
        = true from hlocked2)]
    rfl
  · unfold _auto_abort
    rw [if_neg (by simp), if_neg hid2]
    show [TMEvent.gitResetHard] ++ (_clear_and_release (runOps ops2)).2 = _
    rw [clear_and_release_events _ hlocked2]
    rfl

/-- Witness for C6 amended at a fresh manager and a failing push. -/
theorem pause_resume_ordering_amended_witness :
    (start_transaction (runOps []) "A" "t1").2.2
      = [TMEvent.lockAcquired, TMEvent.activeSet, TMEvent.pauseCalled,
         TMEvent.timeoutScheduled]
    ∧ (end_transaction (runOps [TMOp.start "A" "t1"]) "A" true true false).2.2
      = (if True ∧ True then [TMEvent.gitCommit, TMEvent.gitPush]
          else [TMEvent.gitCommit])
        ++ [TMEvent.activeCleared, TMEvent.resumeCalled, TMEvent.lockReleased] :=
  ⟨(pause_resume_ordering_amended [] [TMOp.start "A" "t1"] "A" "t1" "A"
      true true false true true (by decide) (by decide)).1,
   (pause_resume_ordering_amended [] [TMOp.start "A" "t1"] "A" "t1" "A"
      true true false true true (by decide) (by decide)).2.1⟩

/-- **C7 counterexample**: a pull whose head moved by one revision in which
git reported the rename `a.md` → `b.md` (status line `R100`) yields a
Pull Outcome with a single combined entry in `modified_files` — `a.md` is
NOT in the deleted list and `b.md` is NOT in the added list, contrary to
the claim. -/
theorem rename_pull_counterexample :
    (pull envRename).success = true
    ∧ (pull envRename).added_files = []
    ∧ (pull envRename).modified_files = ["a.md\tb.md".data]
    ∧ (pull envRename).deleted_files = []
    ∧ (pull envRename).deleted_files.contains "a.md".data = false
    ∧ (pull envRename).added_files.contains "b.md".data = false := by
  decide

/-- **C7 amended**: a rename that git's diff reports with an `R` status
line becomes one `modified` entry carrying both tab-joined paths; a rename
reported as separate `D` and `A` lines surfaces as delete+add; and the
added/modified/deleted lists are mutually exclusive per path whenever no
path occurs on two classified diff lines. -/
theorem rename_pull_amended (out : List Char)
    (h : (parsedPaths (splitLines (trimChars out))).Nodup) :
    (pull envRename).added_files = []
    ∧ (pull envRename).deleted_files = []
    ∧ (pull envRename).modified_files = ["a.md\tb.md".data]
    ∧ _parse_pull_file_statuses "D\ta.md\nA\tb.md\n".data
        = (["b.md".data], [], ["a.md".data])
    ∧ (∀ x ∈ (_parse_pull_file_statuses out).1,
        x ∉ (_parse_pull_file_statuses out).2.1)
    ∧ (∀ x ∈ (_parse_pull_file_statuses out).1,
        x ∉ (_parse_pull_file_statuses out).2.2)
    ∧ (∀ x ∈ (_parse_pull_file_statuses out).2.1,
        x ∉ (_parse_pull_file_statuses out).2.2) := by
  have hd := parseLines_disjoint (splitLines (trimChars out)) h
  exact ⟨by decide, by decide, by decide, by decide, hd.1, hd.2.1, hd.2.2⟩

/-- Witness for C7 amended on a concrete add+delete diff. -/
theorem rename_pull_amended_witness :
    (parsedPaths (splitLines (trimChars "A\tx.md\nD\ty.md\n".data))).Nodup
    ∧ (∀ x ∈ (_parse_pull_file_statuses "A\tx.md\nD\ty.md\n".data).1,
        x ∉ (_parse_pull_file_statuses "A\tx.md\nD\ty.md\n".data).2.2) :=
  ⟨by decide,
   (rename_pull_amended "A\tx.md\nD\ty.md\n".data (by decide)).2.2.2.2.2.1⟩

/-- A pull against a remote that has not advanced: both `rev-parse HEAD`
snapshots agree and the pull itself succeeds. -/
def envNoAdvance : PullEnv :=
  { headBefore := ⟨0, "abc123\n".data, []⟩
    pullRun := ⟨0, "Already up to date.".data, []⟩
    headAfter := ⟨0, "abc123\n".data, []⟩
    diffRun := ⟨0, [], []⟩ }

/-- A pull whose git invocation failed with an authentication error. -/
def envAuthFail : PullEnv :=
  { headBefore := ⟨0, "abc123\n".data, []⟩
    pullRun := ⟨1, [], "fatal: Authentication failed\n".data⟩
    headAfter := ⟨0, "abc123\n".data, []⟩
    diffRun := ⟨0, [], []⟩ }

/-- **C8**: `pull` is total — every environment yields a `PullResult`,
with failure reported as `success := false` carrying the tool's stripped
stderr and empty path lists, never an exception — and when the pull
command succeeds without moving the head the result is success with empty
added/modified/deleted lists. -/
theorem pull_total_and_idempotent (env : PullEnv) :
    (env.pullRun.returncode ≠ 0 →
      pull env = { success := false, message := trimChars env.pullRun.stderr })
    ∧ (env.pullRun.returncode = 0 →
        trimChars env.headBefore.stdout = trimChars env.headAfter.stdout →
        pull env = { success := true, message := trimChars env.pullRun.stdout })
    ∧ ((pull env).success = true
        ∨ ((pull env).success = false
            ∧ (pull env).message = trimChars env.pullRun.stderr
            ∧ (pull env).added_files = []
            ∧ (pull env).modified_files = []
            ∧ (pull env).deleted_files = [])) := by
  refine ⟨?_, ?_, ?_⟩
  · intro h
    unfold pull
    rw [if_pos h]
  · intro h0 hhead
    have hne : ¬ env.pullRun.returncode ≠ 0 := by simp [h0]
    unfold pull
    rw [if_neg hne]
    by_cases hb : env.headBefore.returncode = 0
      <;> by_cases ha : env.headAfter.returncode = 0
      <;> simp [hb, ha, hhead, optTruthy]
  · by_cases h : env.pullRun.returncode ≠ 0
    · right
      unfold pull
      rw [if_pos h]
      exact ⟨rfl, rfl, rfl, rfl, rfl⟩
    · left
      unfold pull
      rw [if_neg h]

/-- Witness for C8: a no-advance pull reports success with empty lists,
and a failing pull reports a non-throwing failure with git's message. -/
theorem pull_total_and_idempotent_witness :
    pull envNoAdvance
      = { success := true, message := trimChars envNoAdvance.pullRun.stdout }
    ∧ pull envAuthFail
      = { success := false, message := trimChars envAuthFail.pullRun.stderr } :=
  ⟨(pull_total_and_idempotent envNoAdvance).2.1 (by decide) (by decide),
   (pull_total_and_idempotent envAuthFail).1 (by decide)⟩

example :
    _parse_blame_porcelain 0
      ("aaaaaaaaaaaaaaaaaaaaaaaaaaaaaaaaaaaaaaaa 1 1 2\nauthor Alice\nauthor-time 100\nsummary first\n\tline one\naaaaaaaaaaaaaaaaaaaaaaaaaaaaaaaaaaaaaaaa 2 2\n\tline two\n".data)
    = [
      { line_number := 1
        commit_hash := "aaaaaaaaaaaaaaaaaaaaaaaaaaaaaaaaaaaaaaaa".data
        author := "Alice".data
        timestamp := 100
        summary := "first".data
        content := "line one".data },
      { line_number := 2
        commit_hash := "aaaaaaaaaaaaaaaaaaaaaaaaaaaaaaaaaaaaaaaa".data
        author := "Alice".data
        timestamp := 100
        summary := "first".data
        content := "line two".data }] := by decide

end StashMCP
